import Mathlib

/-
Verification development for the miner proof-of-work core
(neurons/Miner/pow.py): the result verifier hashcat_verify, the
process runner run_hashcat and the orchestrator run_miner_pow with
its shared job queue, shallowly embedded over lists of characters.

Python strings are modelled as List Char.  The external child process
(subprocess.run) is modelled by an environment function from the
argument vector to an abstract behaviour: normal completion with an
exit code, captured stdout/stderr and an elapsed wall-clock time;
a timeout (subprocess.TimeoutExpired); or an arbitrary exception.
Wall-clock times are modelled as rationals supplied by the behaviour,
standing for time.time() deltas measured at the classification point.
-/

namespace MinerPow

abbrev Str := List Char

/-- The whitespace characters stripped by Python str.strip (ASCII part). -/
def isPyWS (c : Char) : Bool :=
  c = ' ' || c = '\t' || c = '\n' || c = '\r' || c = '\x0b' || c = '\x0c'

/-- Python item.strip(): drop whitespace from both ends of the line. -/
def pyStrip (s : Str) : Str :=
  ((s.dropWhile isPyWS).reverse.dropWhile isPyWS).reverse

/-- Python s.split(sep) for a one-character separator: always returns at
least one field; adjacent separators yield empty fields. -/
def splitOnCh (sep : Char) : Str → List Str
  | [] => [[]]
  | c :: rest =>
    if c = sep then [] :: splitOnCh sep rest
    else
      match splitOnCh sep rest with
      | [] => [[c]]
      | f :: fs => (c :: f) :: fs

/-- needle is an initial segment of the haystack. -/
def leadsWith : Str → Str → Bool
  | [], _ => true
  | _ :: _, [] => false
  | a :: as, b :: bs => (a == b) && leadsWith as bs

/-- Python needle in haystack: substring containment. -/
def hasSub (needle : Str) : Str → Bool
  | [] => needle.isEmpty
  | c :: rest => leadsWith needle (c :: rest) || hasSub needle rest

/-- hashcat_verify(_hash, output): scan output line by line; on the first
line containing _hash as a substring, strip the line, split it on the
colon separator and return the last field; None when no line matches. -/
def hashcat_verify (_hash output : Str) : Option Str :=
  match (splitOnCh '\n' output).find? (fun item => hasSub _hash item) with
  | some item => some ((splitOnCh ':' (pyStrip item)).getLastD [])
  | none => none

section BasicLemmas

theorem splitOnCh_ne_nil (sep : Char) (s : Str) : splitOnCh sep s ≠ [] := by
  cases s with
  | nil => simp [splitOnCh]
  | cons c rest =>
    simp only [splitOnCh]
    split
    · simp
    · split <;> simp

theorem splitOnCh_of_not_mem (sep : Char) (s : Str) (h : ∀ c ∈ s, c ≠ sep) :
    splitOnCh sep s = [s] := by
  induction s with
  | nil => rfl
  | cons c rest ih =>
    have hc : c ≠ sep := h c (List.mem_cons_self c rest)
    have hr : splitOnCh sep rest = [rest] :=
      ih (fun x hx => h x (List.mem_cons_of_mem c hx))
    simp [splitOnCh, hc, hr]

theorem mem_of_mem_pyStrip (c : Char) (s : Str) (h : c ∈ pyStrip s) : c ∈ s := by
  unfold pyStrip at h
  rw [List.mem_reverse] at h
  have h2 : c ∈ (s.dropWhile isPyWS).reverse := (List.dropWhile_sublist _).subset h
  rw [List.mem_reverse] at h2
  exact (List.dropWhile_sublist _).subset h2

theorem leadsWith_self_append (n b : Str) : leadsWith n (n ++ b) = true := by
  induction n with
  | nil => simp [leadsWith]
  | cons a as ih => simp [leadsWith, ih]

theorem hasSub_self_append (n b : Str) : hasSub n (n ++ b) = true := by
  cases n with
  | nil =>
    cases b with
    | nil => rfl
    | cons c cs => simp [hasSub, leadsWith]
  | cons a as =>
    simp only [List.cons_append, hasSub, Bool.or_eq_true]
    left
    exact leadsWith_self_append (a :: as) b

theorem hasSub_cons (n h : Str) (c : Char) (hh : hasSub n h = true) :
    hasSub n (c :: h) = true := by
  simp only [hasSub, Bool.or_eq_true]
  right
  exact hh

theorem hasSub_append_left (n a h : Str) (hh : hasSub n h = true) :
    hasSub n (a ++ h) = true := by
  induction a with
  | nil => simpa using hh
  | cons c cs ih => exact hasSub_cons n (cs ++ h) c ih

theorem hasSub_embed (a n b : Str) : hasSub n (a ++ n ++ b) = true := by
  rw [List.append_assoc]
  exact hasSub_append_left n a (n ++ b) (hasSub_self_append n b)

end BasicLemmas

/-- PowResult: the TypedDict returned to the caller.  password and error
are optional strings; local_execution_time is the measured wall-clock
delta (a Python float, modelled as a rational). -/
structure PowResult where
  password : Option Str
  local_execution_time : Rat
  error : Option Str
deriving DecidableEq, Repr

/-- Observable behaviour of the spawned child process for one invocation
of subprocess.run: normal completion (exit code, captured stdout and
stderr, elapsed time measured right after the wait), expiry of the
wall-clock timeout, or any other exception (spawn failure, I/O error),
each carrying the elapsed time measured in the corresponding handler. -/
inductive ProcBehavior where
  | completes (returncode : Int) (stdout stderr : Str) (elapsed : Rat)
  | timesOut (elapsed : Rat)
  | raises (excMsg : Str) (elapsed : Rat)
deriving DecidableEq, Repr

/-- The wall-clock delta from dispatch start to the outcome, whichever
branch classified it. -/
def elapsedOf : ProcBehavior → Rat
  | ProcBehavior.completes _ _ _ t => t
  | ProcBehavior.timesOut t => t
  | ProcBehavior.raises _ t => t

/-- Python str(i) for the exit code. -/
def intStr (i : Int) : Str := (toString i).toList

/-- Rendering of the elapsed time in the timeout message.  The Python
source formats the float with two decimals; the exact decimal rendering
of a float is abstracted here (no claim inspects these digits). -/
def format2f (q : Rat) : Str := (toString q).toList

/-- The error message of the tool-failure branch:
run_id ++ given text ++ exit code ++ given text ++ captured stderr. -/
def failMsg (run_id : Str) (rc : Int) (stderr : Str) : Str :=
  run_id ++ String.toList ": ❌ Hashcat execution failed with code "
    ++ intStr rc ++ String.toList ": " ++ stderr

/-- The error message of the timeout branch. -/
def timeoutMsg (run_id : Str) (elapsed : Rat) : Str :=
  run_id ++ String.toList ": ❌ Hashcat execution timed out ("
    ++ format2f elapsed ++ String.toList ")"

/-- The error message of the catch-all branch: the unknown_error_message
followed by the rendered exception. -/
def unknownMsg (run_id excMsg : Str) : Str :=
  run_id ++ String.toList ": ❌ run_hashcat execution failed: " ++ excMsg

/-- The argument vector run_hashcat hands to subprocess.run, exactly as
built in the source (command = [hashcat_path, f-string hash:salt, ...]).
str(chars) is the identity since chars is already a string. -/
def hashcat_command (hashcat_path _hash salt mode chars mask
    hashcat_workload_profile session : Str) : List Str :=
  [hashcat_path,
   _hash ++ ':' :: salt,
   String.toList "-a", String.toList "3",
   String.toList "-D", String.toList "2",
   String.toList "-m", mode,
   String.toList "-1", chars,
   mask,
   String.toList "-w", hashcat_workload_profile,
   String.toList "--session", session,
   String.toList "--optimized-kernel-enable"]

/-- run_hashcat: builds the argument vector, runs the child through the
environment behaviour function, and classifies the outcome.  The quoted
command_str built with shlex.quote is only passed to trace logging (a
no-op here); the child receives the discrete vector.  The Python
timeout keyword is absorbed into the behaviour (ProcBehavior.timesOut
occurs exactly when subprocess.run raised TimeoutExpired). -/
def run_hashcat (run_id _hash salt mode chars mask : Str)
    (hashcat_path hashcat_workload_profile session : Str)
    (behaviorOf : List Str → ProcBehavior) : PowResult :=
  let command := hashcat_command hashcat_path _hash salt mode chars mask
    hashcat_workload_profile session
  match behaviorOf command with
  | ProcBehavior.completes rc stdout stderr elapsed =>
    if rc = 0 ∧ stdout ≠ [] then
      match hashcat_verify _hash stdout with
      | some result =>
        if result ≠ [] then
          { password := some result, local_execution_time := elapsed,
            error := none }
        else
          { password := none, local_execution_time := elapsed,
            error := some (failMsg run_id rc stderr) }
      | none =>
        { password := none, local_execution_time := elapsed,
          error := some (failMsg run_id rc stderr) }
    else
      { password := none, local_execution_time := elapsed,
        error := some (failMsg run_id rc stderr) }
  | ProcBehavior.timesOut elapsed =>
    { password := none, local_execution_time := elapsed,
      error := some (timeoutMsg run_id elapsed) }
  | ProcBehavior.raises excMsg elapsed =>
    { password := none, local_execution_time := elapsed,
      error := some (unknownMsg run_id excMsg) }

/-- deque.remove(x): removes the first occurrence of x; None models the
ValueError raised when x is absent. -/
def pyRemoveFirst (x : Str) : List Str → Option (List Str)
  | [] => none
  | y :: ys =>
    if y = x then some ys
    else (pyRemoveFirst x ys).map (fun zs => y :: zs)

/-- run_miner_pow: the orchestrator.  Appends run_id to the shared queue,
runs run_hashcat (which is total: it catches every exception), then in
the finally block removes run_id from the queue, and returns the result
paired with the final queue state.  The fresh uuid4 session token is
supplied by the environment as the session argument.  None models a
ValueError escaping from the finally-block removal; the
hashcat_extended_options parameter is accepted, as in the source, and
never used. -/
def run_miner_pow (queue : List Str)
    (run_id _hash salt mode chars mask : Str)
    (hashcat_path hashcat_workload_profile hashcat_extended_options : Str)
    (session : Str) (behaviorOf : List Str → ProcBehavior) :
    Option (PowResult × List Str) :=
  let q1 := queue ++ [run_id]
  let result := run_hashcat run_id _hash salt mode chars mask
    hashcat_path hashcat_workload_profile session behaviorOf
  (pyRemoveFirst run_id q1).map (fun q2 => (result, q2))

section QueueLemmas

theorem pyRemoveFirst_append_self (x : Str) (q : List Str) (h : x ∉ q) :
    pyRemoveFirst x (q ++ [x]) = some q := by
  induction q with
  | nil => simp [pyRemoveFirst]
  | cons y ys ih =>
    have hyx : ¬ y = x := fun e => h (e ▸ List.mem_cons_self y ys)
    have hr := ih (fun m => h (List.mem_cons_of_mem y m))
    simp [pyRemoveFirst, hyx, hr]

theorem pyRemoveFirst_append_total (x : Str) (q : List Str) :
    ∃ q2, pyRemoveFirst x (q ++ [x]) = some q2 := by
  induction q with
  | nil => exact ⟨[], by simp [pyRemoveFirst]⟩
  | cons y ys ih =>
    obtain ⟨q2, hq⟩ := ih
    by_cases hy : y = x
    · exact ⟨ys ++ [x], by simp [pyRemoveFirst, hy]⟩
    · exact ⟨y :: q2, by simp [pyRemoveFirst, hy, hq]⟩

end QueueLemmas

section MessageLemmas

theorem hasSub_of_eq (n h a b : Str) (he : h = a ++ n ++ b) : hasSub n h = true :=
  he ▸ hasSub_embed a n b

theorem failMsg_assoc (run_id : Str) (rc : Int) (stderr : Str) :
    failMsg run_id rc stderr =
      (run_id ++ String.toList ": ❌ Hashcat execution failed with code ")
        ++ intStr rc ++ (String.toList ": " ++ stderr) := by
  simp [failMsg, List.append_assoc]

end MessageLemmas

/-- Claim C6: when the child exceeds the timeout, run_hashcat returns a
PowResult with password absent, local_execution_time set to the elapsed
time, and an error message that embeds run_id and describes a timeout. -/
theorem run_hashcat_timeout_result
    (run_id _hash salt mode chars mask hashcat_path wp session : Str) (t : Rat) :
    run_hashcat run_id _hash salt mode chars mask hashcat_path wp session
        (fun _ => ProcBehavior.timesOut t) =
      { password := none, local_execution_time := t,
        error := some (timeoutMsg run_id t) } ∧
    hasSub run_id (timeoutMsg run_id t) = true ∧
    hasSub (String.toList "timed out") (timeoutMsg run_id t) = true := by
  refine ⟨rfl, ?_, ?_⟩
  · exact hasSub_of_eq run_id (timeoutMsg run_id t) []
      (String.toList ": ❌ Hashcat execution timed out ("
        ++ format2f t ++ String.toList ")")
      (by simp [timeoutMsg, List.append_assoc])
  · refine hasSub_of_eq (String.toList "timed out") (timeoutMsg run_id t)
      (run_id ++ String.toList ": ❌ Hashcat execution ")
      (String.toList " (" ++ format2f t ++ String.toList ")") ?_
    have hlit : String.toList ": ❌ Hashcat execution timed out (" =
        String.toList ": ❌ Hashcat execution "
          ++ String.toList "timed out" ++ String.toList " (" := by decide
    simp [timeoutMsg, hlit, List.append_assoc]

/-- Claim C7: the hashcat_extended_options argument of run_miner_pow is
never used: two invocations differing only in it return the same
result. -/
theorem run_miner_pow_extended_options_irrelevant
    (queue : List Str) (run_id _hash salt mode chars mask hp wp : Str)
    (opts1 opts2 session : Str) (behaviorOf : List Str → ProcBehavior) :
    run_miner_pow queue run_id _hash salt mode chars mask hp wp opts1
        session behaviorOf =
      run_miner_pow queue run_id _hash salt mode chars mask hp wp opts2
        session behaviorOf := rfl

/-- Claim C8: on every outcome of run_hashcat the returned PowResult has
local_execution_time equal to the elapsed wall-clock delta of the
behaviour that classified the outcome. -/
theorem run_hashcat_time_populated
    (run_id _hash salt mode chars mask hashcat_path wp session : Str)
    (behaviorOf : List Str → ProcBehavior) :
    (run_hashcat run_id _hash salt mode chars mask hashcat_path wp session
        behaviorOf).local_execution_time =
      elapsedOf (behaviorOf (hashcat_command hashcat_path _hash salt mode
        chars mask wp session)) := by
  cases hb : behaviorOf (hashcat_command hashcat_path _hash salt mode
      chars mask wp session) with
  | completes rc stdout stderr t =>
    simp only [run_hashcat, hb, elapsedOf]
    split
    · cases hv : hashcat_verify _hash stdout with
      | some r => simp only [hv]; split <;> rfl
      | none => simp only [hv]
    · rfl
  | timesOut t => simp only [run_hashcat, hb, elapsedOf]
  | raises msg t => simp only [run_hashcat, hb, elapsedOf]

/-- Claim C9: run_hashcat constructs the argument vector in exactly the
fixed shape and order given by the specification, with hash-mode,
charset and mask passed through verbatim, and the child's behaviour
depends on the invocation only through that discrete vector (the quoted
string form exists only for logging). -/
theorem hashcat_command_vector
    (run_id _hash salt mode chars mask hashcat_path wp session : Str)
    (exec1 exec2 : List Str → ProcBehavior)
    (h : exec1 (hashcat_command hashcat_path _hash salt mode chars mask
          wp session) =
        exec2 (hashcat_command hashcat_path _hash salt mode chars mask
          wp session)) :
    hashcat_command hashcat_path _hash salt mode chars mask wp session =
      [hashcat_path,
       _hash ++ String.toList ":" ++ salt,
       String.toList "-a", String.toList "3",
       String.toList "-D", String.toList "2",
       String.toList "-m", mode,
       String.toList "-1", chars,
       mask,
       String.toList "-w", wp,
       String.toList "--session", session,
       String.toList "--optimized-kernel-enable"] ∧
    run_hashcat run_id _hash salt mode chars mask hashcat_path wp session
        exec1 =
      run_hashcat run_id _hash salt mode chars mask hashcat_path wp
        session exec2 := by
  constructor
  · simp [hashcat_command]
  · simp only [run_hashcat, h]

/-- Claim C9 witness at concrete inputs. -/
theorem hashcat_command_vector_concrete :
    hashcat_command (String.toList "hashcat") (String.toList "deadbeef")
        (String.toList "s1") (String.toList "610") (String.toList "?l?d")
        (String.toList "?1?1?1") (String.toList "3")
        (String.toList "tok") =
      [ String.toList "hashcat",
        String.toList "deadbeef" ++ String.toList ":" ++ String.toList "s1",
        String.toList "-a", String.toList "3",
        String.toList "-D", String.toList "2",
        String.toList "-m", String.toList "610",
        String.toList "-1", String.toList "?l?d",
        String.toList "?1?1?1",
        String.toList "-w", String.toList "3",
        String.toList "--session", String.toList "tok",
        String.toList "--optimized-kernel-enable"] ∧
    run_hashcat (String.toList "r1") (String.toList "deadbeef")
        (String.toList "s1") (String.toList "610") (String.toList "?l?d")
        (String.toList "?1?1?1") (String.toList "hashcat")
        (String.toList "3") (String.toList "tok")
        (fun _ => ProcBehavior.timesOut 5) =
      run_hashcat (String.toList "r1") (String.toList "deadbeef")
        (String.toList "s1") (String.toList "610") (String.toList "?l?d")
        (String.toList "?1?1?1") (String.toList "hashcat")
        (String.toList "3") (String.toList "tok")
        (fun _ => ProcBehavior.timesOut 5) :=
  hashcat_command_vector (String.toList "r1") (String.toList "deadbeef")
    (String.toList "s1") (String.toList "610") (String.toList "?l?d")
    (String.toList "?1?1?1") (String.toList "hashcat") (String.toList "3")
    (String.toList "tok") (fun _ => ProcBehavior.timesOut 5)
    (fun _ => ProcBehavior.timesOut 5) rfl

/-- Error field discipline of the runner, shared helper: the error field
is absent exactly on the genuine success path, where the password is a
present, non-empty extraction. -/
theorem run_hashcat_error_none_iff
    (run_id _hash salt mode chars mask hashcat_path wp session : Str)
    (behaviorOf : List Str → ProcBehavior) :
    ((run_hashcat run_id _hash salt mode chars mask hashcat_path wp
        session behaviorOf).error = none ↔
      ∃ p, (run_hashcat run_id _hash salt mode chars mask hashcat_path wp
        session behaviorOf).password = some p ∧ p ≠ []) := by
  cases hb : behaviorOf (hashcat_command hashcat_path _hash salt mode
      chars mask wp session) with
  | completes rc stdout stderr t =>
    simp only [run_hashcat, hb]
    split
    · cases hv : hashcat_verify _hash stdout with
      | some r =>
        simp only [hv]
        split
        · rename_i hr
          constructor
          · intro _
            exact ⟨r, rfl, hr⟩
          · intro _
            rfl
        · simp
      | none => simp [hv]
    · simp
  | timesOut t => simp [run_hashcat, hb]
  | raises msg t => simp [run_hashcat, hb]

/-- Claim C1: run_miner_pow is total — for every input and every child
behaviour it returns a PowResult (the finally-block removal cannot fail
because the run_id was appended on entry) — and its error field is
absent exactly on the genuine success path, so every failure path
returns a PowResult with error populated. -/
theorem run_miner_pow_total_error_discipline
    (queue : List Str)
    (run_id _hash salt mode chars mask hp wp opts session : Str)
    (behaviorOf : List Str → ProcBehavior) :
    ∃ r q2, run_miner_pow queue run_id _hash salt mode chars mask hp wp
        opts session behaviorOf = some (r, q2) ∧
      (r.error = none ↔ ∃ p, r.password = some p ∧ p ≠ []) := by
  obtain ⟨q2, hq⟩ := pyRemoveFirst_append_total run_id queue
  refine ⟨run_hashcat run_id _hash salt mode chars mask hp wp session
    behaviorOf, q2, ?_, ?_⟩
  · simp [run_miner_pow, hq]
  · exact run_hashcat_error_none_iff run_id _hash salt mode chars mask hp
      wp session behaviorOf

/-- Claim C2: dispatch adds run_id to the shared queue before invoking
the runner (the queue seen by the runner is queue ++ [run_id], which
contains run_id), and on every exit path the finally block removes it,
so the final queue returned by run_miner_pow is the original one,
without run_id. -/
theorem run_miner_pow_registry_scoped
    (queue : List Str)
    (run_id _hash salt mode chars mask hp wp opts session : Str)
    (behaviorOf : List Str → ProcBehavior)
    (h : run_id ∉ queue) :
    run_id ∈ queue ++ [run_id] ∧
    run_miner_pow queue run_id _hash salt mode chars mask hp wp opts
        session behaviorOf =
      some (run_hashcat run_id _hash salt mode chars mask hp wp session
        behaviorOf, queue) ∧
    run_id ∉ queue := by
  refine ⟨List.mem_append_right queue (List.mem_cons_self run_id []), ?_, h⟩
  simp [run_miner_pow, pyRemoveFirst_append_self run_id queue h]

/-- Claim C2 witness at concrete inputs. -/
theorem run_miner_pow_registry_scoped_concrete :
    String.toList "job" ∈ ([] : List Str) ++ [ String.toList "job"] ∧
    run_miner_pow [] (String.toList "job") (String.toList "h")
        (String.toList "s") (String.toList "0") (String.toList "?l")
        (String.toList "?1") (String.toList "hc") (String.toList "3")
        (String.toList "opts") (String.toList "tok")
        (fun _ => ProcBehavior.timesOut 2) =
      some (run_hashcat (String.toList "job") (String.toList "h")
        (String.toList "s") (String.toList "0") (String.toList "?l")
        (String.toList "?1") (String.toList "hc") (String.toList "3")
        (String.toList "tok") (fun _ => ProcBehavior.timesOut 2), []) ∧
    String.toList "job" ∉ ([] : List Str) :=
  run_miner_pow_registry_scoped [] (String.toList "job") (String.toList "h")
    (String.toList "s") (String.toList "0") (String.toList "?l")
    (String.toList "?1") (String.toList "hc") (String.toList "3")
    (String.toList "opts") (String.toList "tok")
    (fun _ => ProcBehavior.timesOut 2) (List.not_mem_nil _)

/-- Claim C4: on normal completion, the outcome is a success — password
equal to the extracted plaintext and error absent — exactly when the
exit code is 0, the captured stdout is non-empty, and hashcat_verify
extracts a non-empty plaintext; in that case the returned PowResult is
the success record carrying the extraction. -/
theorem run_hashcat_success_iff
    (run_id _hash salt mode chars mask hashcat_path wp session : Str)
    (rc : Int) (stdout stderr : Str) (t : Rat) :
    ((run_hashcat run_id _hash salt mode chars mask hashcat_path wp
        session (fun _ => ProcBehavior.completes rc stdout stderr t)).error
        = none ↔
      rc = 0 ∧ stdout ≠ [] ∧
        ∃ p, hashcat_verify _hash stdout = some p ∧ p ≠ []) ∧
    (∀ p, hashcat_verify _hash stdout = some p → p ≠ [] → rc = 0 →
      stdout ≠ [] →
      run_hashcat run_id _hash salt mode chars mask hashcat_path wp
          session (fun _ => ProcBehavior.completes rc stdout stderr t) =
        { password := some p, local_execution_time := t, error := none }) := by
  constructor
  · simp only [run_hashcat]
    split
    · rename_i hcond
      cases hv : hashcat_verify _hash stdout with
      | some r =>
        simp only [hv]
        split
        · rename_i hr
          constructor
          · intro _
            exact ⟨hcond.1, hcond.2, r, rfl, hr⟩
          · intro _
            rfl
        · rename_i hr
          simp [hcond, hv, hr]
      | none => simp [hcond, hv]
    · rename_i hcond
      simp only []
      constructor
      · intro he
        exact absurd he (by simp)
      · intro ⟨h0, hne, _⟩
        exact absurd ⟨h0, hne⟩ hcond
  · intro p hp hpne h0 hne
    simp [run_hashcat, h0, hne, hp, hpne]

/-- Claim C4 witness: a fake tool exiting 0 printing a matching line
with trailing field secret123 yields that password and no error. -/
theorem run_hashcat_success_iff_concrete :
    run_hashcat (String.toList "r1") (String.toList "h") (String.toList "s")
        (String.toList "0") (String.toList "?l") (String.toList "?1")
        (String.toList "hc") (String.toList "3") (String.toList "tok")
        (fun _ => ProcBehavior.completes 0
          (String.toList "h:s:secret123") (String.toList "") 1) =
      { password := some (String.toList "secret123"),
        local_execution_time := 1, error := none } :=
  (run_hashcat_success_iff (String.toList "r1") (String.toList "h")
      (String.toList "s") (String.toList "0") (String.toList "?l")
      (String.toList "?1") (String.toList "hc") (String.toList "3")
      (String.toList "tok") 0 (String.toList "h:s:secret123")
      (String.toList "") 1).2
    (String.toList "secret123") (by decide) (by decide) rfl (by decide)

/-- Claim C5: when the child exits non-zero, or exits zero but the
verifier extracts nothing, run_hashcat returns password absent and an
error message embedding run_id, the exit code, and the captured
stderr. -/
theorem run_hashcat_tool_failure
    (run_id _hash salt mode chars mask hashcat_path wp session : Str)
    (rc : Int) (stdout stderr : Str) (t : Rat)
    (h : rc ≠ 0 ∨ hashcat_verify _hash stdout = none) :
    run_hashcat run_id _hash salt mode chars mask hashcat_path wp session
        (fun _ => ProcBehavior.completes rc stdout stderr t) =
      { password := none, local_execution_time := t,
        error := some (failMsg run_id rc stderr) } ∧
    hasSub run_id (failMsg run_id rc stderr) = true ∧
    hasSub (intStr rc) (failMsg run_id rc stderr) = true ∧
    hasSub stderr (failMsg run_id rc stderr) = true := by
  refine ⟨?_, ?_, ?_, ?_⟩
  · rcases h with h0 | hv
    · simp [run_hashcat, h0]
    · simp only [run_hashcat]
      split
      · simp [hv]
      · rfl
  · exact hasSub_of_eq run_id (failMsg run_id rc stderr) []
      (String.toList ": ❌ Hashcat execution failed with code "
        ++ intStr rc ++ String.toList ": " ++ stderr)
      (by simp [failMsg, List.append_assoc])
  · exact hasSub_of_eq (intStr rc) (failMsg run_id rc stderr)
      (run_id ++ String.toList ": ❌ Hashcat execution failed with code ")
      (String.toList ": " ++ stderr)
      (by simp [failMsg, List.append_assoc])
  · exact hasSub_of_eq stderr (failMsg run_id rc stderr)
      (run_id ++ String.toList ": ❌ Hashcat execution failed with code "
        ++ intStr rc ++ String.toList ": ") []
      (by simp [failMsg, List.append_assoc])

/-- Claim C5 witness: a fake tool exiting with code 1 yields password
absent and an error embedding run_id, the exit code and stderr. -/
theorem run_hashcat_tool_failure_concrete :
    run_hashcat (String.toList "r2") (String.toList "h") (String.toList "s")
        (String.toList "0") (String.toList "?l") (String.toList "?1")
        (String.toList "hc") (String.toList "3") (String.toList "tok")
        (fun _ => ProcBehavior.completes 1 (String.toList "")
          (String.toList "boom") 2) =
      { password := none, local_execution_time := 2,
        error := some (failMsg (String.toList "r2") 1
          (String.toList "boom")) } ∧
    hasSub (String.toList "r2")
      (failMsg (String.toList "r2") 1 (String.toList "boom")) = true ∧
    hasSub (intStr 1)
      (failMsg (String.toList "r2") 1 (String.toList "boom")) = true ∧
    hasSub (String.toList "boom")
      (failMsg (String.toList "r2") 1 (String.toList "boom")) = true :=
  run_hashcat_tool_failure (String.toList "r2") (String.toList "h")
    (String.toList "s") (String.toList "0") (String.toList "?l")
    (String.toList "?1") (String.toList "hc") (String.toList "3")
    (String.toList "tok") 1 (String.toList "") (String.toList "boom") 2
    (Or.inl (by decide))

/-- Modelled from the specification's words, for comparison with the
source's hashcat_verify: on the first matching line, split the line on
the separator and return the last field, trimmed of surrounding
whitespace. -/
def hashcat_verify_specWords (_hash output : Str) : Option Str :=
  match (splitOnCh '\n' output).find? (fun item => hasSub _hash item) with
  | some item => some (pyStrip ((splitOnCh ':' item).getLastD []))
  | none => none

/-- Claim C3 counterexample: on the line h: x (with a space after the
separator) the source strips the whole line first and then splits, so
it returns the last field with its leading space intact, not the
trimmed field the specification describes. -/
theorem hashcat_verify_trim_counterexample :
    hashcat_verify (String.toList "h") (String.toList "h: x") =
      some (String.toList " x") ∧
    hashcat_verify_specWords (String.toList "h") (String.toList "h: x") =
      some (String.toList "x") ∧
    (String.toList " x") ≠ (String.toList "x") :=
  ⟨by decide, by decide, by decide⟩

/-- Claim C3 as amended: hashcat_verify returns None exactly when no
line of the output contains the target hash as a substring; otherwise,
for the first line that does, it returns the last separator-delimited
field of the line after the whole line has been stripped of surrounding
whitespace (the field itself is not additionally trimmed). -/
theorem hashcat_verify_first_match (hsh out : Str) :
    (hashcat_verify hsh out = none ↔
      ∀ line ∈ splitOnCh '\n' out, hasSub hsh line = false) ∧
    (∀ line,
      (splitOnCh '\n' out).find? (fun item => hasSub hsh item) = some line →
      hashcat_verify hsh out =
        some ((splitOnCh ':' (pyStrip line)).getLastD [])) := by
  constructor
  · unfold hashcat_verify
    cases hf : (splitOnCh '\n' out).find? (fun item => hasSub hsh item) with
    | some line =>
      simp only [hf]
      constructor
      · intro he
        exact absurd he (by simp)
      · intro hall
        have hp := List.find?_some hf
        have hm := List.mem_of_find?_eq_some hf
        rw [hall line hm] at hp
        exact absurd hp (by simp)
    | none =>
      simp only [hf]
      constructor
      · intro _ line hl
        have hn := List.find?_eq_none.mp hf line hl
        simpa using hn
      · intro _
        trivial
  · intro line hfind
    unfold hashcat_verify
    simp only [hfind]

/-- Claim C3 amended witness at concrete inputs: the first of two
matching lines wins. -/
theorem hashcat_verify_first_match_concrete :
    hashcat_verify (String.toList "h") (String.toList "ab\nh:x\nh:y") =
      some ((splitOnCh ':' (pyStrip (String.toList "h:x"))).getLastD []) :=
  (hashcat_verify_first_match (String.toList "h")
    (String.toList "ab\nh:x\nh:y")).2 (String.toList "h:x") (by decide)

/-- Claim C10: hashcat_verify is total — splitting any string on the
separator yields at least one field, so the last-field access is always
in bounds — and when the first matching line contains no separator at
all, the whole stripped line is returned rather than None. -/
theorem hashcat_verify_total_nocolon :
    (∀ s : Str, splitOnCh ':' s ≠ []) ∧
    (∀ hsh out line : Str,
      (splitOnCh '\n' out).find? (fun item => hasSub hsh item) = some line →
      (∀ c ∈ line, c ≠ ':') →
      hashcat_verify hsh out = some (pyStrip line)) := by
  refine ⟨fun s => splitOnCh_ne_nil ':' s, ?_⟩
  intro hsh out line hfind hnc
  have hnc2 : ∀ c ∈ pyStrip line, c ≠ ':' :=
    fun c hc => hnc c (mem_of_mem_pyStrip c line hc)
  have hsplit := splitOnCh_of_not_mem ':' (pyStrip line) hnc2
  unfold hashcat_verify
  simp only [hfind, hsplit]
  rfl

/-- Claim C10 witness: a matching line without any separator returns the
whole stripped line. -/
theorem hashcat_verify_total_nocolon_concrete :
    hashcat_verify (String.toList "h") (String.toList "ab\n h x ") =
      some (pyStrip (String.toList " h x ")) :=
  hashcat_verify_total_nocolon.2 (String.toList "h")
    (String.toList "ab\n h x ") (String.toList " h x ")
    (by decide) (by decide)

end MinerPow
